import Mathlib

/-!
# A shallow embedding of grub-core/kern/ieee1275/init.c

This file models the IEEE1275 (Open Firmware) platform-init layer of GRUB:
the two-pass heap-claiming logic (`heap_size`, `heap_init`,
`grub_claim_heap`), boot-location resolution
(`grub_machine_get_bootlocation` with `grub_translate_ieee1275_path`), and
the bootargs importer (`grub_parse_cmdline`).

Machine integers are modelled as `Nat` with explicit reductions modulo
`2^64` (for `grub_uint64_t` arithmetic) and `2^32` (for the
`grub_uint32_t` running total) exactly where the C code can overflow.
External firmware services (the claim call, the memory-map iterator, the
device-tree string helpers) are modelled as explicit oracles / data.
-/

namespace GrubIeee1275

/-- `2 ^ 64`: arithmetic on `grub_uint64_t` values wraps modulo this. -/
def W64 : Nat := 18446744073709551616

/-- `2 ^ 32`: arithmetic on `grub_uint32_t` values wraps modulo this. -/
def U32 : Nat := 4294967296

/-- `GRUB_MEMORY_AVAILABLE` from include/grub/memory.h (header of the
repository; the enum's first member after 0 is available = 1). -/
def GRUB_MEMORY_AVAILABLE : Nat := 1

/-- The environment of the claim pass: the firmware flag
`GRUB_IEEE1275_FLAG_NO_PRE1_5M_CLAIM`, the running image's bounds
(`(grub_addr_t) _start` and `(grub_addr_t) _end`), and the firmware claim
call `grub_claimmap` as an oracle returning a `grub_err_t`
(0 = success, nonzero = failure). -/
structure HeapConfig where
  noPre15MClaim : Bool
  imageStart : Nat
  imageEnd : Nat
  claim : Nat → Nat → Nat

/-- The sub-4GiB ceiling filter shared by both passes of init.c:
`if (addr > 0xffffffffUL) return 0;` and
`if (addr + len > 0xffffffffUL) len = 0xffffffffUL - addr;`.
`none` models the early `return 0` (extent ignored). -/
def clipCeil (addr len : Nat) : Option (Nat × Nat) :=
  if addr > 0xffffffff then none
  else some (addr, if (addr + len) % W64 > 0xffffffff then 0xffffffff - addr else len)

/-- Pass 1 visitor `heap_size` of init.c: sums the sub-4GiB portion of
every available extent into the `grub_uint32_t` accumulator. -/
def heap_size (addr len ty total : Nat) : Nat :=
  if ty ≠ GRUB_MEMORY_AVAILABLE then total
  else
    match clipCeil addr len with
    | none => total
    | some (_, l) => (total + l) % U32

/-- Pass 1 run over the whole firmware map (the `heap_size` visitor never
stops early: it always returns 0). Extents are `(addr, len, type)`. -/
def heapSizePass : List (Nat × Nat × Nat) → Nat → Nat
  | [], total => total
  | e :: rest, total => heapSizePass rest (heap_size e.1 e.2.1 e.2.2 total)

/-- Steps b-d of the claim pass, up to and including `len -= 1`:
the ceiling clip, the `GRUB_IEEE1275_FLAG_NO_PRE1_5M_CLAIM` low-memory
trim, and the one-unit decrement (which wraps modulo `2^64`, as the
`grub_uint64_t` subtraction does). `none` models the early `return 0`. -/
def trimPre (cfg : HeapConfig) (addr len : Nat) : Option (Nat × Nat) :=
  match clipCeil addr len with
  | none => none
  | some (a, l) =>
    if cfg.noPre15MClaim ∧ (a + l) % W64 ≤ 0x180000 then none
    else
      let a2 := if cfg.noPre15MClaim ∧ a < 0x180000 then 0x180000 else a
      let l2 := if cfg.noPre15MClaim ∧ a < 0x180000 then (a + l) % W64 - 0x180000 else l
      some (a2, (l2 + (W64 - 1)) % W64)

/-- Steps b-f of the claim pass: `trimPre`, then the self-overlap guard
(`addr < _end && addr + len > _start` drops the whole extent and warns),
then the 0x30000000 (768MB) trim. Returns `(addr, len, warned)`. -/
def trimSteps (cfg : HeapConfig) (addr len : Nat) : Option (Nat × Nat × Bool) :=
  match trimPre cfg addr len with
  | none => none
  | some (a, l) =>
    let w : Bool := decide (a < cfg.imageEnd ∧ (a + l) % W64 > cfg.imageStart)
    let l1 := if a < cfg.imageEnd ∧ (a + l) % W64 > cfg.imageStart then 0 else l
    let a2 := if a < 0x30000000 ∧ (a + l1) % W64 > 0x30000000 then 0x30000000 else a
    let l2 := if a < 0x30000000 ∧ (a + l1) % W64 > 0x30000000 then l1 - (0x30000000 - a) else l1
    some (a2, l2, w)

/-- What one `heap_init` visit produces: its `int` return value (0 =
continue, 1 = stop, a nonzero `grub_err_t` = claim failure), the new
budget written back through `data`, the region handed to
`grub_mm_init_region` (if any), and whether the self-overlap warning was
printed. -/
structure HIResult where
  ret : Nat
  total : Nat
  claimed : Option (Nat × Nat)
  warned : Bool
  deriving DecidableEq

/-- Pass 2 visitor `heap_init` of init.c: trims the extent
(`trimSteps`), clips it to the remaining budget
(`if (len > total) len = total`), and if the resulting length is nonzero
claims it from the firmware; a failed claim returns the error at once,
a successful one registers the region and decrements the budget; the
visitor signals stop (returns 1) when the budget written back is zero. -/
def heap_init (cfg : HeapConfig) (addr len ty total : Nat) : HIResult :=
  if ty ≠ GRUB_MEMORY_AVAILABLE then ⟨0, total, none, false⟩
  else
    match trimSteps cfg addr len with
    | none => ⟨0, total, none, false⟩
    | some (a, l, w) =>
      let l2 := if l > total then total else l
      if l2 ≠ 0 then
        let e := cfg.claim a l2
        if e ≠ 0 then ⟨e, total, none, w⟩
        else
          let t2 := total - l2
          ⟨if t2 = 0 then 1 else 0, t2, some (a, l2), w⟩
      else ⟨if total = 0 then 1 else 0, total, none, w⟩

/-- Modelled from the spec: `grub_machine_mmap_iterate` (the Firmware
Memory Map Iterator, whose code is not under src/) invokes the visitor
once per extent, in order, until the map is exhausted or the visitor
signals stop by returning nonzero. Running the `heap_init` visitor over
a map yields (final budget, regions registered in order, the stopping
return value — 0 when the map was exhausted). -/
def heapInitPass (cfg : HeapConfig) : List (Nat × Nat × Nat) → Nat →
    Nat × List (Nat × Nat) × Nat
  | [], total => (total, [], 0)
  | e :: rest, total =>
    let r := heap_init cfg e.1 e.2.1 e.2.2 total
    if r.ret ≠ 0 then (r.total, r.claimed.toList, r.ret)
    else
      let k := heapInitPass cfg rest r.total
      (k.1, r.claimed.toList ++ k.2.1, k.2.2)

/-- The orchestrator `grub_claim_heap` of init.c (powerpc/i386 variant).
When `GRUB_IEEE1275_FLAG_FORCE_CLAIM` is set it calls `heap_init` once on
the static window `(staticStart, staticLen)` with type 1 and
`total = 0`, and returns; otherwise it runs pass 1, derives the budget
(`total / 4`, capped at `HEAP_MAX_SIZE`, here the parameter `heapMax`),
and runs pass 2. Result: (final budget, regions registered, stop code). -/
def grub_claim_heap (cfg : HeapConfig) (forceClaim : Bool)
    (staticStart staticLen heapMax : Nat) (mmap : List (Nat × Nat × Nat)) :
    Nat × List (Nat × Nat) × Nat :=
  if forceClaim then
    let r := heap_init cfg staticStart staticLen 1 0
    (r.total, r.claimed.toList, r.ret)
  else
    let raw := heapSizePass mmap 0
    let t1 := raw / 4
    let t2 := if t1 > heapMax then heapMax else t1
    heapInitPass cfg mmap t2

/-- The length `heap_init` would reach at its final `if (len)` check:
the trimmed length clipped to the remaining budget (0 when the extent is
skipped before that point). -/
def finalLen (cfg : HeapConfig) (addr len total : Nat) : Nat :=
  match trimSteps cfg addr len with
  | none => 0
  | some (_, l, _) => if l > total then total else l

/-- Sum of the lengths of a list of claimed regions. -/
def sumLens (rs : List (Nat × Nat)) : Nat := (rs.map Prod.snd).sum

/-! ## Boot-location resolution

`grub_machine_get_bootlocation` consumes strings obtained from firmware
helpers (`grub_ieee1275_get_boot_dev`, `..._get_device_type`,
`..._get_aliasdevname`, `..._canonicalise_devname`, `..._get_filename`,
`..._encode_devname`) and the optionally registered
`grub_ieee1275_net_config` callback. Strings are `List Char`; the
helpers are opaque oracles collected in a `Firmware` record. The result
models the final values of `*device` and `*path` (`none` = left unset). -/

/-- `*ptr == ',' || *ptr == ':'` — the separators stripped from the tail
of the canonical network device name. -/
def isSepChar (c : Char) : Bool := c = ',' || c = ':'

/-- The descent of `ptr` in the strip loop of the network branch:
starting from index `i` (initially `strlen - 1`), step down while the
index is positive and the character there is a separator; the loop never
inspects index 0. Returns the index where `ptr` stops. -/
def stripPos (s : List Char) : Nat → Nat
  | 0 => 0
  | i + 1 => if isSepChar (s.getD (i + 1) ' ') then stripPos s i else i + 1

/-- The network-branch strip: after the descent, `ptr++; *ptr = 0;`
keeps the first `stripPos + 1` characters. -/
def stripTrailingSep (s : List Char) : List Char :=
  s.take (stripPos s (s.length - 1) + 1)

/-- The strip as the spec words it ("stripped of all trailing `,`/`:`
characters"): remove the entire maximal separator suffix. Stated only to
compare with `stripTrailingSep`, which is what the code computes. -/
def stripAllTrailingSep (s : List Char) : List Char :=
  (s.reverse.dropWhile isSepChar).reverse

/-- `grub_translate_ieee1275_path`: replace every backslash by a forward
slash (the C loop repeatedly rewrites the first remaining backslash
until none is left). -/
def grub_translate_ieee1275_path : List Char → List Char
  | [] => []
  | c :: r => (if c = '\\' then '/' else c) :: grub_translate_ieee1275_path r

/-- `grub_strrchr (filename, '\\')` followed by `*lastslash = '\0'`:
the prefix of the string before its last backslash, or `none` when the
string has no backslash (in which case the code does not touch `*path`). -/
def truncAtLastBackslash : List Char → Option (List Char)
  | [] => none
  | c :: rest =>
    match truncAtLastBackslash rest with
    | some r => some (c :: r)
    | none => if c = '\\' then some ([] : List Char) else none

/-- The firmware string helpers used by `grub_machine_get_bootlocation`,
as oracles: the boot device specifier (`none` = property absent), the
device type of a specifier (`none` = NULL), the alias device name, the
canonicalised name (`none` = NULL), the filename component (`none` =
NULL), the devname encoder, and the optionally registered
`grub_ieee1275_net_config` callback (given the stripped canonical name
and the boot specifier, it yields the `*device` / `*path` it writes). -/
structure Firmware where
  bootDev : Option (List Char)
  deviceType : List Char → Option (List Char)
  aliasName : List Char → List Char
  canonical : List Char → Option (List Char)
  filename : List Char → Option (List Char)
  encode : List Char → List Char
  netConfig : Option (List Char → List Char → Option (List Char) × Option (List Char))

/-- The string "network" compared against the device type. -/
def networkChars : List Char := ("network").toList

/-- `grub_machine_get_bootlocation` of init.c: resolve the boot device
specifier into `(*device, *path)` (`none` = left unset). Network
specifiers go through the canonicalise-and-strip path and the
`grub_ieee1275_net_config` callback; other specifiers get the encoded
device name, plus a translated path when the firmware filename contains
a backslash. -/
def grub_machine_get_bootlocation (fw : Firmware) :
    Option (List Char) × Option (List Char) :=
  match fw.bootDev with
  | none => (none, none)
  | some bootpath =>
    if fw.deviceType bootpath = some networkChars then
      match fw.canonical (fw.aliasName bootpath) with
      | none => (none, none)
      | some canon =>
        match fw.netConfig with
        | some cb => cb (stripTrailingSep canon) bootpath
        | none => (none, none)
    else
      (some (fw.encode bootpath),
       match fw.filename bootpath with
       | none => none
       | some fn =>
         match truncAtLastBackslash fn with
         | none => none
         | some pre => some (grub_translate_ieee1275_path pre))

/-! ## Command-line import -/

/-- Modelled from the spec: the whitespace skipped after each `;`
("advance past the delimiter and any following whitespace").
`grub_isspace` lives in include/grub/misc.h, outside src/: it accepts
newline, carriage return, blank and tab. -/
def grub_isspace (c : Char) : Bool :=
  c = '\n' || c = '\r' || c = ' ' || c = '\t'

/-- The C string starting at offset `i` of the `args` buffer: the
characters up to the first NUL (the end of the buffer acts as NUL). -/
def cstrAt (buf : List Char) (i : Nat) : List Char :=
  (buf.drop i).takeWhile (fun c => c ≠ Char.ofNat 0)

/-- Processing of one `;`-delimited command: `grub_strchr (command, '=')`
splits it at the first `=` into a name and a value passed to
`grub_env_set`; a command with no `=` sets nothing. -/
def processTok (tok : List Char) : List (List Char × List Char) :=
  match tok.findIdx? (fun c => c = '=') with
  | none => []
  | some k => [(tok.take k, tok.drop (k + 1))]

/-- `while (grub_isspace (args[i])) i++;` — skip the whitespace run at
offset `i`. -/
def skipWs (buf : List Char) (i : Nat) : Nat :=
  i + ((buf.drop i).takeWhile grub_isspace).length

/-- The `while (i < actual)` loop of `grub_parse_cmdline`, with fuel for
termination (each iteration moves `i` past at least one character, so
`buf.length + 1` units of fuel always suffice). Returns the environment
entries set, in order. -/
def parseLoop (buf : List Char) (i : Nat) : Nat → List (List Char × List Char)
  | 0 => []
  | fuel + 1 =>
    if i < buf.length then
      let cmd := cstrAt buf i
      match cmd.findIdx? (fun c => c = ';') with
      | none => processTok cmd
      | some j => processTok (cmd.take j) ++ parseLoop buf (skipWs buf (i + j + 1)) fuel
    else []

/-- `grub_parse_cmdline` of init.c: read the chosen node's "bootargs"
property (`none` = absent or unreadable) and import its `;`-delimited
`name=value` commands as environment entries; a property whose length
`actual` is at most 1 imports nothing. -/
def grub_parse_cmdline (prop : Option (List Char)) : List (List Char × List Char) :=
  match prop with
  | none => []
  | some buf => if buf.length > 1 then parseLoop buf 0 (buf.length + 1) else []

/-! ## Concrete environments used by witnesses and counterexamples -/

/-- A claim environment with no low-memory flag, image at
`[0x200000, 0x300000)`, and a firmware whose claim calls all succeed. -/
def cfg0 : HeapConfig :=
  { noPre15MClaim := false, imageStart := 0x200000, imageEnd := 0x300000,
    claim := fun _ _ => 0 }

/-- Like `cfg0` but the firmware refuses (error 7) any claim at address
`0x40000000`. -/
def cfgFail : HeapConfig :=
  { noPre15MClaim := false, imageStart := 0x200000, imageEnd := 0x300000,
    claim := fun a _ => if a = 0x40000000 then 7 else 0 }

/-! ## Helper lemmas on the claim pass -/

/-- With a zero budget, `heap_init` never claims: the budget clip
`if (len > total) len = total` forces the length to 0. -/
lemma heap_init_zero_budget (cfg : HeapConfig) (a l ty : Nat) :
    (heap_init cfg a l ty 0).claimed = none := by
  unfold heap_init
  split
  · rfl
  rcases htrim : trimSteps cfg a l with _ | ⟨a', l', w⟩
  · simp [htrim]
  · simp only [htrim]
    by_cases hl : l' > 0
    · simp [hl]
    · have h0 : l' = 0 := by omega
      simp [h0]

/-- The address produced by `trimPre` never exceeds `0xffffffff`. -/
lemma trimPre_addr_le (cfg : HeapConfig) (addr len a l : Nat)
    (h : trimPre cfg addr len = some (a, l)) : a ≤ 0xffffffff := by
  unfold trimPre clipCeil at h
  by_cases hc : addr > 0xffffffff
  · simp [hc] at h
  · simp only [hc, if_false] at h
    split at h <;> split at h <;>
      first
      | exact Option.noConfusion h
      | (simp only [Option.some.injEq, Prod.mk.injEq] at h
         obtain ⟨ha, -⟩ := h
         split at ha <;> omega)

/-- One `heap_init` visit keeps the accounting balanced: the new budget
plus the length just claimed equals the old budget. -/
lemma heap_init_accounting (cfg : HeapConfig) (a l ty total : Nat) :
    (heap_init cfg a l ty total).total
      + sumLens (heap_init cfg a l ty total).claimed.toList = total := by
  unfold heap_init
  split
  · simp [sumLens]
  rcases htrim : trimSteps cfg a l with _ | ⟨a', l', w⟩
  · simp [htrim, sumLens]
  simp only [htrim]
  by_cases hgt : l' > total
  · simp only [if_pos hgt]
    by_cases hl : total ≠ 0
    · by_cases he : cfg.claim a' total ≠ 0 <;> simp [hl, he, sumLens]
    · simp [hl, sumLens]
  · simp only [if_neg hgt]
    by_cases hl : l' ≠ 0
    · by_cases he : cfg.claim a' l' ≠ 0
      · simp [hl, he, sumLens]
      · simp [hl, he, sumLens]; omega
    · simp [hl, sumLens]

/-- If a visit brings a nonzero budget to zero, the visitor returns 1
(signals stop). -/
lemma heap_init_stop_on_zero (cfg : HeapConfig) (a l ty total : Nat)
    (h0 : total ≠ 0) (h : (heap_init cfg a l ty total).total = 0) :
    (heap_init cfg a l ty total).ret = 1 := by
  unfold heap_init at *
  split at h
  · exact absurd h h0
  rcases htrim : trimSteps cfg a l with _ | ⟨a', l', w⟩
  · simp only [htrim] at h
    exact absurd h h0
  simp only [htrim] at h ⊢
  by_cases hgt : l' > total
  · simp only [if_pos hgt] at h ⊢
    by_cases hl : total ≠ 0
    · by_cases he : cfg.claim a' total ≠ 0 <;> simp_all
    · simp_all
  · simp only [if_neg hgt] at h ⊢
    by_cases hl : l' ≠ 0
    · by_cases he : cfg.claim a' l' ≠ 0 <;> simp_all
    · simp_all

/-- If the pass runs a prefix of the map to its end (stop code 0), the
pass over the whole map continues from the budget and regions the prefix
produced. -/
lemma heapInitPass_continue (cfg : HeapConfig) (pre : List (Nat × Nat × Nat)) :
    ∀ (post : List (Nat × Nat × Nat)) (T t1 : Nat) (cs : List (Nat × Nat)),
    heapInitPass cfg pre T = (t1, cs, 0) →
    heapInitPass cfg (pre ++ post) T =
      ((heapInitPass cfg post t1).1, cs ++ (heapInitPass cfg post t1).2.1,
       (heapInitPass cfg post t1).2.2) := by
  induction pre with
  | nil =>
    intro post T t1 cs hpre
    simp only [heapInitPass, Prod.mk.injEq] at hpre
    obtain ⟨hT, hcs, -⟩ := hpre
    subst hT
    subst hcs
    simp only [List.nil_append, List.append_nil]
  | cons e pre ih =>
    intro post T t1 cs hpre
    simp only [heapInitPass] at hpre ⊢
    by_cases hret : (heap_init cfg e.1 e.2.1 e.2.2 T).ret ≠ 0
    · rw [if_pos hret] at hpre
      simp only [Prod.mk.injEq] at hpre
      exact absurd hpre.2.2 hret
    · rw [if_neg hret] at hpre
      rw [if_neg hret]
      simp only [List.append_eq]
      simp only [Prod.mk.injEq] at hpre
      obtain ⟨h1, h2, h3⟩ := hpre
      have hk : heapInitPass cfg pre (heap_init cfg e.1 e.2.1 e.2.2 T).total =
          ((heapInitPass cfg pre (heap_init cfg e.1 e.2.1 e.2.2 T).total).1,
           (heapInitPass cfg pre (heap_init cfg e.1 e.2.1 e.2.2 T).total).2.1, 0) := by
        rw [← h3]
      rw [ih post _ _ _ hk, ← h2, ← h1]
      simp [List.append_assoc]

/-- `sumLens` distributes over append. -/
lemma sumLens_append (xs ys : List (Nat × Nat)) :
    sumLens (xs ++ ys) = sumLens xs + sumLens ys := by
  simp [sumLens]

/-- The pass accounting: final budget plus everything claimed equals the
starting budget. -/
lemma heapInitPass_accounting (cfg : HeapConfig) :
    ∀ (l : List (Nat × Nat × Nat)) (T : Nat),
    (heapInitPass cfg l T).1 + sumLens (heapInitPass cfg l T).2.1 = T := by
  intro l
  induction l with
  | nil => intro T; simp [heapInitPass, sumLens]
  | cons e rest ih =>
    intro T
    simp only [heapInitPass]
    by_cases hret : (heap_init cfg e.1 e.2.1 e.2.2 T).ret ≠ 0
    · rw [if_pos hret]
      exact heap_init_accounting cfg e.1 e.2.1 e.2.2 T
    · rw [if_neg hret]
      have h1 := heap_init_accounting cfg e.1 e.2.1 e.2.2 T
      have h2 := ih (heap_init cfg e.1 e.2.1 e.2.2 T).total
      simp only [sumLens_append]
      omega

/-- `heap_init` when the firmware claim call fails: the error is
returned at once, nothing is registered, the budget is untouched. -/
lemma heap_init_claim_fail (cfg : HeapConfig) (x1 x2 ty T a l : Nat)
    (w : Bool) (e : Nat)
    (hty : ty = GRUB_MEMORY_AVAILABLE)
    (htrim : trimSteps cfg x1 x2 = some (a, l, w))
    (hl : (if l > T then T else l) ≠ 0)
    (he : cfg.claim a (if l > T then T else l) = e)
    (hne : e ≠ 0) :
    heap_init cfg x1 x2 ty T = ⟨e, T, none, w⟩ := by
  subst hty
  unfold heap_init
  rw [if_neg (by simp)]
  simp only [htrim]
  rw [if_pos hl, he, if_pos hne]

/-! ## The claims -/

/-- Claim C1: the claim as stated is false of the code — this theorem
evaluates the code at the failing input. With
`GRUB_IEEE1275_FLAG_FORCE_CLAIM` set, `grub_claim_heap` calls
`heap_init` on the static window with `total = 0`; the budget clip
`if (len > total) len = total` then zeroes the length, so nothing at all
is claimed from the firmware and no region is registered (here shown at
a concrete window, and for every configuration, window and map). -/
theorem C1_force_claim_claims_nothing :
    (grub_claim_heap cfg0 true 0x1000000 0x100000 0x4000000 []).2.1 = []
    ∧ ∀ (cfg : HeapConfig) (s l hm : Nat) (mmap : List (Nat × Nat × Nat)),
        (grub_claim_heap cfg true s l hm mmap).2.1 = [] := by
  constructor
  · decide
  · intro cfg s l hm mmap
    simp only [grub_claim_heap, if_true]
    rw [heap_init_zero_budget]
    rfl

/-- Claim C2 counterexample: an `Available` extent reported with zero
length does not end up with zero length after the trimming steps — the
one-unit decrement wraps modulo `2^64` — and the claim pass claims the
whole remaining budget (0x1000 bytes at the extent's base) for it,
registering a region and zeroing the budget. -/
theorem C2_zero_length_extent_claimed :
    heap_init cfg0 0x40000000 0 1 0x1000 =
      ⟨1, 0, some (0x40000000, 0x1000), false⟩ := by
  decide

/-- Claim C2 (amended): for every Available extent whose length is zero
at the claim pass's final `if (len)` check (after the ceiling clip, the
low-memory trim, the one-unit decrement, the self-overlap drop, the
0x30000000 trim and the budget clip), no firmware claim is issued, no
region is registered, and the remaining budget is unchanged. -/
theorem C2_zero_final_length_not_claimed (cfg : HeapConfig)
    (addr len ty total : Nat) (h : finalLen cfg addr len total = 0) :
    (heap_init cfg addr len ty total).claimed = none ∧
    (heap_init cfg addr len ty total).total = total := by
  unfold finalLen at h
  unfold heap_init
  split
  · exact ⟨rfl, rfl⟩
  rcases htrim : trimSteps cfg addr len with _ | ⟨a', l', w⟩
  · simp [htrim]
  · simp only [htrim] at h ⊢
    simp [h]

/-- Witness for C2: a concrete extent inside the image range is dropped
by the self-overlap guard, ends with zero length, and is not claimed. -/
theorem C2_zero_final_length_witness :
    (heap_init cfg0 0x280000 0x1000 1 0x5000).claimed = none ∧
    (heap_init cfg0 0x280000 0x1000 1 0x5000).total = 0x5000 :=
  C2_zero_final_length_not_claimed cfg0 0x280000 0x1000 1 0x5000 (by decide)

/-- Claim C5: an extent whose trimmed form (after steps b-d) intersects
the running image's range `[imageStart, imageEnd)` is dropped in full by
the claim pass: the warning is printed, nothing is claimed, no region is
registered, and the budget is unchanged (the visitor merely continues,
or stops if the budget was already zero). -/
theorem C5_self_overlap_drops_extent (cfg : HeapConfig)
    (addr len ty total a l : Nat)
    (hty : ty = GRUB_MEMORY_AVAILABLE)
    (hpre : trimPre cfg addr len = some (a, l))
    (hlo : a < cfg.imageEnd)
    (hhi : (a + l) % W64 > cfg.imageStart) :
    heap_init cfg addr len ty total =
      ⟨if total = 0 then 1 else 0, total, none, true⟩ := by
  have ha : a ≤ 0xffffffff := trimPre_addr_le cfg addr len a l hpre
  have hmod : a % W64 = a := Nat.mod_eq_of_lt (by unfold W64; omega)
  have htrim : trimSteps cfg addr len = some (a, 0, true) := by
    unfold trimSteps
    rw [hpre]
    have hw : decide (a < cfg.imageEnd ∧ (a + l) % W64 > cfg.imageStart) = true :=
      decide_eq_true ⟨hlo, hhi⟩
    have h3 : ¬ (a < 0x30000000 ∧ (a + 0) % W64 > 0x30000000) := by
      rw [Nat.add_zero, hmod]
      omega
    simp only [hw, if_pos (And.intro hlo hhi), if_neg h3]
  subst hty
  unfold heap_init
  rw [if_neg (by simp)]
  simp only [htrim]
  simp

/-- Witness for C5: a concrete extent strictly inside the image range is
dropped in full with the warning. -/
theorem C5_self_overlap_witness :
    heap_init cfg0 0x250000 0x1000 1 0x5000 = ⟨0, 0x5000, none, true⟩ := by
  have h := C5_self_overlap_drops_extent cfg0 0x250000 0x1000 1 0x5000
    0x250000 0xFFF rfl (by decide) (by decide) (by decide)
  simpa using h

/-- Claim C6 counterexample: an Available extent with base exactly at
`0xffffffff` (the code's sub-4GiB ceiling) does not contribute zero in
the claim pass: the ceiling clip makes its length 0, the one-unit
decrement wraps modulo `2^64`, and the pass claims the whole remaining
budget at that base. -/
theorem C6_base_at_ceiling_claimed_in_pass2 :
    heap_init cfg0 0xffffffff 2 1 0x1000 =
      ⟨1, 0, some (0xffffffff, 0x1000), false⟩ := by
  decide

/-- Claim C6 (amended): an extent straddling the `0xffffffff` ceiling
(base below it, true base+length above it) is clipped to `ceiling -
base` by the shared ceiling-clip step of both passes, and the size pass
adds exactly that much; an extent with base above the ceiling
contributes zero in both passes; an extent with base exactly at the
ceiling contributes zero in the size pass (in the claim pass it can be
claimed — see the counterexample). -/
theorem C6_ceiling_clip_both_passes :
    (∀ addr len T, addr < 0xffffffff → 0xffffffff < addr + len →
      addr + len < W64 →
      clipCeil addr len = some (addr, 0xffffffff - addr) ∧
      heap_size addr len GRUB_MEMORY_AVAILABLE T = (T + (0xffffffff - addr)) % U32)
    ∧ (∀ addr len ty T (cfg : HeapConfig) total, 0xffffffff < addr →
      heap_size addr len ty T = T ∧
      heap_init cfg addr len ty total = ⟨0, total, none, false⟩)
    ∧ (∀ len T, 0xffffffff + len < W64 → T < U32 →
      heap_size 0xffffffff len GRUB_MEMORY_AVAILABLE T = T) := by
  refine ⟨?_, ?_, ?_⟩
  · intro addr len T h1 h2 h3
    have hmod : (addr + len) % W64 = addr + len := Nat.mod_eq_of_lt h3
    have hclip : clipCeil addr len = some (addr, 0xffffffff - addr) := by
      unfold clipCeil
      rw [if_neg (by omega), hmod, if_pos (by omega)]
    refine ⟨hclip, ?_⟩
    unfold heap_size
    rw [if_neg (by simp)]
    simp only [hclip]
  · intro addr len ty T cfg total h1
    constructor
    · unfold heap_size
      by_cases hty : ty ≠ GRUB_MEMORY_AVAILABLE
      · rw [if_pos hty]
      · rw [if_neg hty]
        have : clipCeil addr len = none := by
          unfold clipCeil
          rw [if_pos (by omega)]
        simp only [this]
    · unfold heap_init
      by_cases hty : ty ≠ GRUB_MEMORY_AVAILABLE
      · rw [if_pos hty]
      · rw [if_neg hty]
        have hc : clipCeil addr len = none := by
          unfold clipCeil
          rw [if_pos (by omega)]
        have : trimSteps cfg addr len = none := by
          unfold trimSteps trimPre
          simp only [hc]
        simp only [this]
  · intro len T h1 h2
    unfold heap_size
    rw [if_neg (by simp)]
    have hmod : (0xffffffff + len) % W64 = 0xffffffff + len := Nat.mod_eq_of_lt h1
    by_cases h0 : len = 0
    · subst h0
      unfold clipCeil
      rw [if_neg (by omega), hmod, if_neg (by omega)]
      simp only [Nat.add_zero]
      exact Nat.mod_eq_of_lt h2
    · unfold clipCeil
      rw [if_neg (by omega), hmod, if_pos (by omega)]
      simp only [Nat.sub_self, Nat.add_zero]
      exact Nat.mod_eq_of_lt h2

/-- Witness for C6: the three parts of the amended claim, each at a
concrete input. -/
theorem C6_ceiling_clip_witness :
    (clipCeil 0xF0000000 0x20000000 = some (0xF0000000, 0x0FFFFFFF) ∧
     heap_size 0xF0000000 0x20000000 GRUB_MEMORY_AVAILABLE 5 = (5 + 0x0FFFFFFF) % U32)
    ∧ (heap_size 0x100000000 7 2 9 = 9 ∧
       heap_init cfg0 0x100000000 7 2 11 = ⟨0, 11, none, false⟩)
    ∧ heap_size 0xffffffff 4 GRUB_MEMORY_AVAILABLE 3 = 3 :=
  ⟨C6_ceiling_clip_both_passes.1 0xF0000000 0x20000000 5 (by decide) (by decide) (by decide),
   C6_ceiling_clip_both_passes.2.1 0x100000000 7 2 9 cfg0 11 (by decide),
   C6_ceiling_clip_both_passes.2.2 4 3 (by decide) (by decide)⟩

/-- Claim C3: when the firmware claim call fails on an extent of the
claim pass, the pass aborts at that extent — the remaining extents
(`rest`) are never visited — the claim call's error is the pass's
result, and the regions already registered by the prefix (`cs`) and the
budget they left (`t1`) are untouched (no rollback). -/
theorem C3_claim_failure_aborts_pass (cfg : HeapConfig)
    (pre rest : List (Nat × Nat × Nat)) (x : Nat × Nat × Nat)
    (T t1 e a l : Nat) (w : Bool) (cs : List (Nat × Nat))
    (hpre : heapInitPass cfg pre T = (t1, cs, 0))
    (hty : x.2.2 = GRUB_MEMORY_AVAILABLE)
    (htrim : trimSteps cfg x.1 x.2.1 = some (a, l, w))
    (hl : (if l > t1 then t1 else l) ≠ 0)
    (he : cfg.claim a (if l > t1 then t1 else l) = e)
    (hne : e ≠ 0) :
    heapInitPass cfg (pre ++ x :: rest) T = (t1, cs, e) := by
  have hx : heap_init cfg x.1 x.2.1 x.2.2 t1 = ⟨e, t1, none, w⟩ :=
    heap_init_claim_fail cfg x.1 x.2.1 x.2.2 t1 a l w e hty htrim hl he hne
  rw [heapInitPass_continue cfg pre (x :: rest) T t1 cs hpre]
  have hcons : heapInitPass cfg (x :: rest) t1 = (t1, [], e) := by
    simp only [heapInitPass, hx]
    rw [if_pos hne]
    simp
  rw [hcons]
  simp

/-- Witness for C3: a three-extent map whose second extent's claim the
firmware refuses with error 7; the pass keeps the first region, skips
the third extent, and reports 7. -/
theorem C3_claim_failure_witness :
    heapInitPass cfgFail
      [(0x31000000, 0x100000, 1), (0x40000000, 0x100000, 1), (0x50000000, 0x1000, 1)]
      0x200000 = (0x100001, [(0x31000000, 0xFFFFF)], 7) := by
  have h := C3_claim_failure_aborts_pass cfgFail [(0x31000000, 0x100000, 1)]
    [(0x50000000, 0x1000, 1)] (0x40000000, 0x100000, 1) 0x200000 0x100001 7
    0x40000000 0xFFFFF false [(0x31000000, 0xFFFFF)]
    (by decide) (by decide) (by decide) (by decide) (by decide) (by decide)
  simpa using h

/-- Claim C4: (i) over any run of the dynamic strategy, the sum of the
lengths of the claimed regions never exceeds the derived budget
`min (raw total / 4, platform cap)`; (ii) when a visit brings a nonzero
budget to zero, the visitor signals stop (return 1) and every extent
after it in the map is left unvisited. -/
theorem C4_budget_invariant :
    (∀ (cfg : HeapConfig) (hm : Nat) (mmap : List (Nat × Nat × Nat)),
      sumLens (grub_claim_heap cfg false 0 0 hm mmap).2.1 ≤
        min (heapSizePass mmap 0 / 4) hm)
    ∧ ∀ (cfg : HeapConfig) (pre rest : List (Nat × Nat × Nat))
        (x : Nat × Nat × Nat) (T t1 : Nat) (cs : List (Nat × Nat)),
        heapInitPass cfg pre T = (t1, cs, 0) → t1 ≠ 0 →
        (heap_init cfg x.1 x.2.1 x.2.2 t1).total = 0 →
        heapInitPass cfg (pre ++ x :: rest) T =
          (0, cs ++ (heap_init cfg x.1 x.2.1 x.2.2 t1).claimed.toList, 1) := by
  constructor
  · intro cfg hm mmap
    simp only [grub_claim_heap, Bool.false_eq_true, if_false]
    have hacc := heapInitPass_accounting cfg mmap
      (if heapSizePass mmap 0 / 4 > hm then hm else heapSizePass mmap 0 / 4)
    by_cases hgt : heapSizePass mmap 0 / 4 > hm
    · rw [if_pos hgt] at hacc ⊢
      omega
    · rw [if_neg hgt] at hacc ⊢
      omega
  · intro cfg pre rest x T t1 cs hpre ht1 hz
    have hret : (heap_init cfg x.1 x.2.1 x.2.2 t1).ret = 1 :=
      heap_init_stop_on_zero cfg x.1 x.2.1 x.2.2 t1 ht1 hz
    rw [heapInitPass_continue cfg pre (x :: rest) T t1 cs hpre]
    have hcons : heapInitPass cfg (x :: rest) t1 =
        (0, (heap_init cfg x.1 x.2.1 x.2.2 t1).claimed.toList, 1) := by
      simp only [heapInitPass]
      rw [if_pos (by rw [hret]; exact one_ne_zero), hret, hz]
    rw [hcons]

/-- Witness for C4: part (i) at a concrete one-extent map; part (ii) at
a map whose first extent exactly exhausts a budget of 0x80 bytes, so
the second extent is left unvisited. -/
theorem C4_budget_invariant_witness :
    sumLens (grub_claim_heap cfg0 false 0 0 0x4000000
        [(0x31000000, 0x100000, 1)]).2.1 ≤
      min (heapSizePass [(0x31000000, 0x100000, 1)] 0 / 4) 0x4000000
    ∧ heapInitPass cfg0 [(0x31000000, 0x200000, 1), (0x50000000, 0x1000, 1)] 0x80 =
        (0, [(0x31000000, 0x80)], 1) := by
  constructor
  · exact C4_budget_invariant.1 cfg0 0x4000000 [(0x31000000, 0x100000, 1)]
  · have h := C4_budget_invariant.2 cfg0 [] [(0x50000000, 0x1000, 1)]
      (0x31000000, 0x200000, 1) 0x80 0x80 [] (by rfl) (by decide) (by decide)
    simp only [List.nil_append] at h
    rw [h]
    decide

/-! ## Boot-location and command-line claims -/

/-- A string with no backslash has no last backslash to truncate at. -/
lemma truncAtLastBackslash_eq_none (fn : List Char) (h : '\\' ∉ fn) :
    truncAtLastBackslash fn = none := by
  induction fn with
  | nil => rfl
  | cons c rest ih =>
    simp only [List.mem_cons, not_or] at h
    obtain ⟨h1, h2⟩ := h
    unfold truncAtLastBackslash
    rw [ih h2, if_neg (fun hc => h1 hc.symm)]

/-- A network firmware whose canonical device name is entirely made of
separators, with a callback that reports the name it was given. -/
def fw7 : Firmware :=
  { bootDev := some (("net0").toList),
    deviceType := fun _ => some (("network").toList),
    aliasName := fun b => b,
    canonical := fun _ => some [',', ':'],
    filename := fun _ => none,
    encode := fun b => b,
    netConfig := some (fun c _ => (some c, none)) }

/-- A disk firmware whose boot filename is `\boot\grub\x`. -/
def fw8 : Firmware :=
  { bootDev := some (("disk0").toList),
    deviceType := fun _ => some (("block").toList),
    aliasName := fun b => b,
    canonical := fun b => some b,
    filename := fun _ => some (("\\boot\\grub\\x").toList),
    encode := fun b => b,
    netConfig := none }

/-- A disk firmware whose boot filename (`yaboot`) has no backslash. -/
def fw10 : Firmware :=
  { bootDev := some (("disk0").toList),
    deviceType := fun _ => some (("block").toList),
    aliasName := fun b => b,
    canonical := fun b => some b,
    filename := fun _ => some (("yaboot").toList),
    encode := fun b => b,
    netConfig := none }

/-- Claim C7 counterexample: the strip loop never removes the first
character of the canonical name (`ptr > canon` stops the descent), so a
canonical name `",:"` is passed to the callback as `","`, not stripped
of all trailing separators (which would leave `""`). -/
theorem C7_first_separator_survives :
    grub_machine_get_bootlocation fw7 = (some [','], none)
    ∧ stripAllTrailingSep ([',', ':']) = []
    ∧ ([','] : List Char) ≠ ([] : List Char) := by
  decide

/-- Claim C7 (amended): for a "network" boot specifier, the resolver
invokes the registered callback with the canonicalised alias device name
stripped of trailing ',' and ':' characters — except that the first
character is never stripped — and writes nothing to device/path itself
(the result is exactly what the callback returns); with no callback
registered, device and path are left unset. -/
theorem C7_network_callback (fw : Firmware) (bootpath canon : List Char)
    (cb : List Char → List Char → Option (List Char) × Option (List Char))
    (hb : fw.bootDev = some bootpath)
    (ht : fw.deviceType bootpath = some networkChars)
    (hc : fw.canonical (fw.aliasName bootpath) = some canon) :
    (fw.netConfig = some cb →
      grub_machine_get_bootlocation fw = cb (stripTrailingSep canon) bootpath)
    ∧ (fw.netConfig = none → grub_machine_get_bootlocation fw = (none, none)) := by
  constructor <;> intro hn <;>
    · simp only [grub_machine_get_bootlocation, hb, ht, hc, hn, if_pos]

/-- Witness for C7: the callback of `fw7` records that it was given
exactly `stripTrailingSep` of the canonical name. -/
theorem C7_network_callback_witness :
    grub_machine_get_bootlocation fw7 = (some (stripTrailingSep ([',', ':'])), none) :=
  (C7_network_callback fw7 (("net0").toList) ([',', ':'])
      (fun c _ => (some c, none)) rfl rfl rfl).1 rfl

/-- Claim C8: for a non-network boot specifier whose firmware filename
is `\boot\grub\x`, the resolver sets the path to `/boot/grub` (truncated
at the last backslash, backslashes translated), and sets the device to
the encoded device name whether or not a filename was present. -/
theorem C8_disk_filename_path (fw : Firmware) (bootpath : List Char)
    (hb : fw.bootDev = some bootpath)
    (ht : ¬ fw.deviceType bootpath = some networkChars) :
    (fw.filename bootpath = some (("\\boot\\grub\\x").toList) →
      grub_machine_get_bootlocation fw =
        (some (fw.encode bootpath), some (("/boot/grub").toList)))
    ∧ (fw.filename bootpath = none →
      grub_machine_get_bootlocation fw = (some (fw.encode bootpath), none)) := by
  constructor <;> intro hf <;>
    · simp only [grub_machine_get_bootlocation, hb, hf, if_neg ht]
      try rfl

/-- Witness for C8: the concrete disk firmware `fw8` resolves to device
`disk0` and path `/boot/grub`. -/
theorem C8_disk_filename_path_witness :
    grub_machine_get_bootlocation fw8 =
      (some (("disk0").toList), some (("/boot/grub").toList)) :=
  (C8_disk_filename_path fw8 (("disk0").toList) rfl (by decide)).1 rfl

/-- Claim C10: for a non-network boot specifier whose firmware filename
contains no backslash at all, the path is left unset while the device is
still set to the encoded device name. -/
theorem C10_no_backslash_leaves_path_unset (fw : Firmware)
    (bootpath fn : List Char)
    (hb : fw.bootDev = some bootpath)
    (ht : ¬ fw.deviceType bootpath = some networkChars)
    (hf : fw.filename bootpath = some fn)
    (hn : '\\' ∉ fn) :
    grub_machine_get_bootlocation fw = (some (fw.encode bootpath), none) := by
  simp only [grub_machine_get_bootlocation, hb, hf,
    truncAtLastBackslash_eq_none fn hn, if_neg ht]

/-- Witness for C10: `fw10`, whose filename is `yaboot`, yields device
`disk0` and no path. -/
theorem C10_no_backslash_witness :
    grub_machine_get_bootlocation fw10 = (some (("disk0").toList), none) :=
  C10_no_backslash_leaves_path_unset fw10 (("disk0").toList) (("yaboot").toList)
    rfl (by decide) rfl (by decide)

/-- Claim C9: the bootargs string `a=1;b=2;  c=3` imports exactly the
three entries `a=1`, `b=2`, `c=3`, the whitespace after each `;` being
skipped; a token with no `=` (the `x` of `x;b=2`) sets nothing; an
absent bootargs property, or one of length at most 1, imports nothing. -/
theorem C9_cmdline_import :
    grub_parse_cmdline (some (("a=1;b=2;  c=3").toList ++ [Char.ofNat 0])) =
      [(("a").toList, ("1").toList), (("b").toList, ("2").toList),
       (("c").toList, ("3").toList)]
    ∧ grub_parse_cmdline (some (("x;b=2").toList ++ [Char.ofNat 0])) =
        [(("b").toList, ("2").toList)]
    ∧ grub_parse_cmdline none = []
    ∧ ∀ buf : List Char, buf.length ≤ 1 → grub_parse_cmdline (some buf) = [] := by
  refine ⟨by decide, by decide, rfl, ?_⟩
  intro buf hlen
  simp only [grub_parse_cmdline]
  rw [if_neg (by omega)]

/-- Witness for C9: a one-character bootargs property imports nothing. -/
theorem C9_cmdline_import_witness : grub_parse_cmdline (some [' ']) = [] :=
  C9_cmdline_import.2.2.2 [' '] (by decide)

end GrubIeee1275

